import Mathlib

/-!
Shallow embedding of the `issho` remote-session layer (`src/issho/issho.py`).

The `Issho` class wraps one ssh connection and offers command execution
(`exec`, `get_output`, dynamic verb dispatch via `__getattr__`), file
transfer (`get`, `put`, `_sftp_paths`), authentication bootstrap (`kinit`)
and job submission (`spark_submit`, `hadoop`).

Modelling conventions:
- The ssh transport is a pure function `Conn : String → List String × List String`
  mapping the command string sent over the channel to its (stdout lines,
  stderr lines) streams.
- Stateful workflows (`get`, `put`, `kinit`, `spark_submit`) are embedded as
  functions returning the ordered trace of remote operations they perform,
  paired with an optional raised error.
- Python exceptions are mapped to the error taxonomy of the specification:
  the `assert application` in `spark_submit` to `invalidSubmission`, the
  `OSError` in `kinit` to `missingCredential`, a `NoneType` attribute access
  to `attributeErr`, and a failing SFTP byte transfer to `transferFailed`.
- Python string primitives used by the code (single-character `str.replace`,
  prefix test, last path segment) are implemented over the character list of
  the string, so that every definition evaluates by kernel reduction.
- `time.time()` is passed in as an opaque timestamp string, the keyring as a
  lookup function, and the local/remote home directories as parameters.
-/

namespace Issho

/-- Python's `s.replace(c, rep)` for a single-character pattern `c`: every
occurrence of `c` in `s` is replaced by `rep`. -/
def replaceCharList (c : Char) (rep : List Char) : List Char → List Char
  | [] => []
  | a :: as => (if a = c then rep else [a]) ++ replaceCharList c rep as

/-- String wrapper for `replaceCharList`. -/
def strReplaceChar (c : Char) (rep : String) (s : String) : String :=
  String.mk (replaceCharList c rep.data s.data)

/-- Prefix test on character lists: Python's `s.startswith(pre)`. -/
def startsWithChars : List Char → List Char → Bool
  | _, [] => true
  | [], _ :: _ => false
  | a :: as, b :: bs => a = b && startsWithChars as bs

/-- String wrapper for `startsWithChars`: Python's `s.startswith(pre)`. -/
def strStarts (s pre : String) : Bool :=
  startsWithChars s.data pre.data

/-- Last slash-separated segment of a path, as a character scan: the
accumulated current segment is reset at every `/`. -/
def lastSegmentChars (l : List Char) : List Char :=
  l.foldl (fun acc a => if a = '/' then [] else acc ++ [a]) []

/-- Last path segment of a slash-separated path string. -/
def lastSegment (s : String) : String :=
  String.mk (lastSegmentChars s.data)

/-- An error raised by an `Issho` operation, following the specification's
error taxonomy. `invalidSubmission` models the `AssertionError` from
`assert application` in `spark_submit`; `missingCredential` models the
`OSError` raised by `kinit`; `attributeErr` models a Python
`AttributeError` (attribute access on `None`); `transferFailed` models a
failure of the SFTP byte transfer. -/
inductive IsshoError where
  | invalidSubmission
  | missingCredential (msg : String)
  | attributeErr (msg : String)
  | transferFailed
  deriving DecidableEq, Repr

/-- A secure connection, modelled as a pure map from the command string sent
over the channel to the pair (stdout lines, stderr lines) produced by the
remote. Lines carry their trailing newline, as in paramiko's file-like
stream iteration. -/
def Conn : Type := String → List String × List String

/-- Modelled from the spec: the helper `add_arguments_to_cmd` of
`issho.helpers` is not under `src/`; per the spec's Path/Command Helpers,
it builds a shell command string by joining the base verb with the
positional arguments, in order, separated by single spaces
(`buildCommand("ls", "-la", "/tmp")` equals `"ls -la /tmp"`), never
dropping or reordering a token. -/
def add_arguments_to_cmd (cmd : String) (args : List String) : String :=
  args.foldl (fun acc a => acc ++ " " ++ a) cmd

/-- The background-detached wrapper from `Issho.exec`: the command, with its
embedded double quotes escaped as `\"`, is embedded as a string literal in
`cmd=$"..."; nohup bash -c "$cmd" &`. -/
def bgWrap (cmd : String) : String :=
  "cmd=$\"" ++ strReplaceChar '\"' "\\\"" cmd ++ "\"; nohup bash -c \"$cmd\" &"

/-- The command string actually sent over the ssh channel by `Issho.exec`:
the verb joined with its arguments, wrapped for background execution when
`bg` is set. -/
def execCmdString (cmd : String) (args : List String) (bg : Bool) : String :=
  let c := add_arguments_to_cmd cmd args
  if bg then bgWrap c else c

/-- The observable outcome of one `Issho.exec` call: the command string sent
over the channel, the string returned (accumulated stdout when
`capture_output` is set, empty otherwise), the stdout lines printed to the
caller's standard output (when not capturing), and the stderr lines written
to the caller's standard error. -/
structure ExecResult where
  sent : String
  captured : String
  printed : List String
  errOut : List String
  deriving DecidableEq, Repr

/-- `Issho.exec`: build the command, optionally wrap it for background
execution, send it over the connection; accumulate stdout into the returned
string when `capture_output` is set, otherwise print each stdout line; then
drain every stderr line to the caller's error channel. -/
def exec (conn : Conn) (cmd : String) (args : List String)
    (bg capture_output : Bool) : ExecResult :=
  let sent := execCmdString cmd args bg
  let out := conn sent
  { sent := sent
    captured := if capture_output then String.join out.1 else ""
    printed := if capture_output then [] else out.1
    errOut := out.2 }

/-- `Issho.get_output`: syntactic sugar for `exec(capture_output=True)`,
returning the accumulated stdout string. -/
def get_output (conn : Conn) (cmd : String) (args : List String) : String :=
  (exec conn cmd args false true).captured

/-- `Issho.__getattr__`: an undefined method name is dispatched as the
partial application of `exec` to `method_name.replace("_", " ")`, so
calling it with arguments executes the verb obtained by replacing every
underscore of the method name with a space. -/
def methodCall (conn : Conn) (method_name : String) (args : List String)
    (bg capture_output : Bool) : ExecResult :=
  exec conn (strReplaceChar '_' " " method_name) args bg capture_output

/-- `re.sub("^-*", "", command)` from `Issho.hadoop`: strip every leading
dash character. -/
def stripLeadingDashes (s : String) : String :=
  String.mk (s.data.dropWhile (· = '-'))

/-- `Issho.hadoop`: execute `hadoop fs` with the subcommand normalized to
exactly one leading dash (one dash prepended to `re.sub("^-*", "", command)`)
followed by the remaining arguments. -/
def hadoop (conn : Conn) (command : String) (args : List String)
    (bg capture_output : Bool) : ExecResult :=
  exec conn "hadoop fs" (("-" ++ stripLeadingDashes command) :: args) bg capture_output

/-- The command string a `hadoop` invocation sends over the channel in
foreground mode. -/
def hadoopCmdString (command : String) (args : List String) : String :=
  execCmdString "hadoop fs" (("-" ++ stripLeadingDashes command) :: args) false

/-- Modelled from the spec: the helper `default_sftp_path` of
`issho.helpers` is not under `src/`; per the spec's Transfer Descriptor
invariant, an omitted side of the (local, remote) path pair defaults to the
last path segment of the other side, and a given side is kept as is. -/
def default_sftp_path (path : Option String) (other : Option String) : String :=
  match path with
  | some p => p
  | none => lastSegment (other.getD "")

/-- Leading home-marker expansion of the local path
(`pathlib.Path.expanduser`, an external library call): a path starting with
`~` has the marker replaced by the local home directory. -/
def expanduser (localHome : String) (p : String) : String :=
  if strStarts p "~" then localHome ++ String.mk (p.data.drop 1) else p

/-- `Issho._sftp_paths`: default each side of the pair from the other using
`default_sftp_path`, then expand the user marker on the local side and
substitute the cached remote home directory for `~` on the remote side via
`str(remotepath).replace("~", self._remote_home_dir)` (Python `str.replace`
rewrites every occurrence). Returns (localpath, remotepath). -/
def _sftp_paths (remoteHome localHome : String)
    (localpath remotepath : Option String) : String × String :=
  let lp := default_sftp_path localpath remotepath
  let rp := default_sftp_path remotepath (some lp)
  (expanduser localHome lp, strReplaceChar '~' remoteHome rp)

/-- One remote operation observed during a file-transfer workflow: a shell
command sent over the ssh channel, or an SFTP byte transfer. -/
inductive Event where
  | remoteCmd (cmd : String)
  | sftpGet (remotepath localpath : String)
  | sftpPut (localpath remotepath : String)
  deriving DecidableEq, Repr

/-- `Issho.get`: force distributed-fs staging when the remote path has the
`hdfs` scheme prefix; resolve the path pair; when staging, first run the
bridge command `hadoop fs -get -f <remote> <tmp>` into a generated
`/tmp/<sanitized-local-name>_<timestamp>` path and retarget the remote side
to it; perform the SFTP byte transfer; when staging, finally `rm` the
temporary path. `sftpFails` simulates a failure of the byte-transfer step,
which aborts the call (the `with` block re-raises), skipping the delete.
Returns the ordered trace of remote operations and the error, if any. -/
def get (remoteHome localHome ts : String) (sftpFails : Bool)
    (remotepath : String) (localpath : Option String) (hadoopFlag : Bool) :
    List Event × Option IsshoError :=
  let hd := hadoopFlag || strStarts remotepath "hdfs"
  let paths := _sftp_paths remoteHome localHome localpath (some remotepath)
  let tmp := "/tmp/" ++ strReplaceChar '/' "_" paths.1 ++ "_" ++ ts
  let pre := if hd then [Event.remoteCmd (hadoopCmdString "get -f" [remotepath, tmp])] else []
  let rp := if hd then tmp else paths.2
  let ev := pre ++ [Event.sftpGet rp paths.1]
  if sftpFails then (ev, some IsshoError.transferFailed)
  else (ev ++ (if hd then [Event.remoteCmd (execCmdString "rm" [rp] false)] else []), none)

/-- `Issho.put`: the guard `hadoop or remotepath.startswith("hdfs")` is
evaluated first; when the `hadoop` flag is falsy and `remotepath` is
`None`, the attribute access on `None` raises before anything else runs.
Otherwise resolve the path pair; when staging, retarget the remote side to
a generated `/tmp/<sanitized-local-name>_<timestamp>` path; perform the
SFTP byte transfer; when staging, bridge out with
`hadoop fs -put <tmp> <remote>` and `rm` the temporary path. A `None`
argument formats as `"None"`, as Python's `str` would. -/
def put (remoteHome localHome ts : String) (sftpFails : Bool)
    (localpath : String) (remotepath : Option String) (hadoopFlag : Bool) :
    List Event × Option IsshoError :=
  match (if hadoopFlag then Except.ok true
         else match remotepath with
              | none => Except.error (IsshoError.attributeErr
                  "NoneType object has no attribute startswith")
              | some rp => Except.ok (strStarts rp "hdfs") :
         Except IsshoError Bool) with
  | Except.error e => ([], some e)
  | Except.ok hd =>
    let paths := _sftp_paths remoteHome localHome (some localpath) remotepath
    let tmp := "/tmp/" ++ strReplaceChar '/' "_" localpath ++ "_" ++ ts
    let rp := if hd then tmp else paths.2
    let ev := [Event.sftpPut paths.1 rp]
    if sftpFails then (ev, some IsshoError.transferFailed)
    else
      (ev ++ (if hd then
          [Event.remoteCmd (hadoopCmdString "put" [rp, remotepath.getD "None"]),
           Event.remoteCmd (execCmdString "rm" [rp] false)] else []), none)

/-- Python dict assignment `d[k] = v` on an association list kept in
insertion order: an existing key keeps its position and gets the new value,
a new key is appended at the end. -/
def updateOpt (opts : List (String × String)) (k v : String) :
    List (String × String) :=
  if opts.any (fun p => p.1 == k) then
    opts.map (fun p => if p.1 == k then (k, v) else p)
  else opts ++ [(k, v)]

/-- One step of the shorthand merge loop in `Issho.spark_submit`: a truthy
(nonempty) shorthand value is written into the options mapping under the
cleaned key; a falsy one is skipped. -/
def mergeField (opts : List (String × String)) (k v : String) :
    List (String × String) :=
  if v = "" then opts else updateOpt opts k v

/-- The shorthand merge loop of `Issho.spark_submit` over `locals()`: the
fields `master`, `jars`, `files`, `driver_class_path` and
`application_class` are merged, in parameter order, into the options
mapping under their own names, except that `application_class` is renamed
to `class` by the `clean_keys` table. -/
def mergeShorthand (opts : List (String × String))
    (master jars files driver_class_path application_class : String) :
    List (String × String) :=
  mergeField (mergeField (mergeField (mergeField (mergeField opts
    "master" master) "jars" jars) "files" files)
    "driver_class_path" driver_class_path) "class" application_class

/-- Modelled from the spec: the helper `clean_spark_options` of
`issho.helpers` is not under `src/`; per the spec, merged options are
cleaned to their canonical spark option names, rendered with a double-dash
prefix (`--jars j1 --master m1`), the shorthand field names mapping to
their spark option names (`driver_class_path` to `--driver-class-path`):
each key is stripped of leading dashes, its underscores replaced by
dashes, and `--` prepended. Deduplication is the identity on mappings
whose cleaned keys are distinct. -/
def clean_spark_option_key (k : String) : String :=
  "--" ++ strReplaceChar '_' "-" (stripLeadingDashes k)

/-- Key-cleaning applied to the whole options mapping. -/
def clean_spark_options (opts : List (String × String)) :
    List (String × String) :=
  opts.map (fun p => (clean_spark_option_key p.1, p.2))

/-- Lexicographic code-point comparison of character lists, the order
Python's `sorted` uses on strings. -/
def leChars : List Char → List Char → Bool
  | [], _ => true
  | _ :: _, [] => false
  | a :: as, b :: bs =>
    if a = b then leChars as bs else decide (a.toNat < b.toNat)

/-- Lexicographic comparison of strings by code point, as used by
`sorted(cleaned_spark_options.items(), key=lambda x: x[0])`. -/
def strLe (s t : String) : Bool :=
  leChars s.data t.data

/-- `sorted(cleaned_spark_options.items(), key=lambda x: x[0])`: sort the
option pairs by option name. -/
def sortOpts (opts : List (String × String)) : List (String × String) :=
  List.insertionSort (fun a b => strLe a.1 b.1 = true) opts

/-- The `" ".join(...)` rendering of option pairs as `name value` tokens. -/
def renderOpts (opts : List (String × String)) : String :=
  match opts.map (fun p => p.1 ++ " " ++ p.2) with
  | [] => ""
  | x :: xs => xs.foldl (fun acc a => acc ++ " " ++ a) x

/-- `Issho.spark_submit`: `assert application` fails (the specification's
`InvalidSubmissionError`) before any remote call when the application
reference is empty; otherwise truthy shorthand fields are merged into the
options mapping, the options cleaned, rendered sorted by option name, and
the single `spark-submit` command executed over the connection. Returns
the trace of commands sent and the error, if any. -/
def spark_submit (spark_options : List (String × String))
    (master jars files driver_class_path application_class
     application application_args : String) :
    List String × Option IsshoError :=
  if application = "" then ([], some IsshoError.invalidSubmission)
  else
    let merged := mergeShorthand spark_options master jars files
      driver_class_path application_class
    let opts_str := renderOpts (sortOpts (clean_spark_options merged))
    let spark_cmd := "spark-submit " ++ opts_str ++ " " ++ application
      ++ " " ++ application_args
    ([execCmdString spark_cmd [] false], none)

/-- A mock secure connection that echoes back, as its single stdout line,
the command it was asked to run, with the newline the remote shell's
`echo` would append. -/
def echoConn : Conn :=
  fun c => ([c ++ "\n"], [])

/-- `issho.helpers.issho_pw_name` is not under `src/`; its key format is
fixed by the repository's CLI (`'<profile>_kinit'` in `src/issho/cli.py`)
and by the spec's credential-store key format `"<profile>_<kind>"`. -/
def issho_pw_name (pw_type profile : String) : String :=
  profile ++ "_" ++ pw_type

/-- `Issho._get_password`: look up the secret stored under the composite
key for this profile and secret kind, for the local user, in the credential
provider (`keyring.get_password`). -/
def _get_password (lookup : String → String → Option String)
    (profile local_user pw_type : String) : Option String :=
  lookup (issho_pw_name pw_type profile) local_user

/-- The actionable message of the error raised by `Issho.kinit`. -/
def kinitErrMsg : String :=
  "Add your kinit password with `issho config <profile>` or by editing `~/.issho/config.toml`"

/-- `Issho.kinit`: fetch the kinit secret; when it is truthy (present and
nonempty) run `echo <secret> | kinit` remotely, otherwise raise the
actionable error. Returns the trace of commands sent and the error, if
any. -/
def kinit (lookup : String → String → Option String)
    (profile local_user : String) : List String × Option IsshoError :=
  match _get_password lookup profile local_user "kinit" with
  | some pw =>
    if pw = "" then ([], some (IsshoError.missingCredential kinitErrMsg))
    else ([execCmdString ("echo " ++ pw ++ " | kinit") [] false], none)
  | none => ([], some (IsshoError.missingCredential kinitErrMsg))

/-! ### Helper lemmas -/

theorem stringExt {s t : String} (h : s.data = t.data) : s = t := by
  cases s; cases t; exact congrArg String.mk h

theorem charToNat_inj {a b : Char} (h : a.toNat = b.toNat) : a = b :=
  Char.ofNat_toNat a ▸ Char.ofNat_toNat b ▸ congrArg Char.ofNat h

theorem leChars_total : ∀ l1 l2, leChars l1 l2 = true ∨ leChars l2 l1 = true
  | [], [] => Or.inl rfl
  | [], _ :: _ => Or.inl rfl
  | _ :: _, [] => Or.inr rfl
  | a :: as, b :: bs => by
    by_cases hab : a = b
    · subst hab
      simpa [leChars] using leChars_total as bs
    · have hn : a.toNat ≠ b.toNat := fun h => hab (charToNat_inj h)
      rcases Nat.lt_or_ge a.toNat b.toNat with h | h
      · exact Or.inl (by simp [leChars, hab, h])
      · have hba : b.toNat < a.toNat := lt_of_le_of_ne h (Ne.symm hn)
        exact Or.inr (by simp [leChars, Ne.symm hab, hba])

theorem leChars_trans : ∀ l1 l2 l3, leChars l1 l2 = true → leChars l2 l3 = true →
    leChars l1 l3 = true
  | [], _, _, _, _ => rfl
  | _ :: _, [], _, h12, _ => by simp [leChars] at h12
  | _ :: _, _ :: _, [], _, h23 => by simp [leChars] at h23
  | a :: as, b :: bs, c :: cs, h12, h23 => by
    by_cases hab : a = b <;> by_cases hbc : b = c
    · subst hab; subst hbc
      simp only [leChars, if_pos rfl] at h12 h23 ⊢
      exact leChars_trans as bs cs h12 h23
    · subst hab
      simp only [leChars, if_pos rfl] at h12
      simpa [leChars, hbc] using h23
    · subst hbc
      simp only [leChars, if_pos rfl] at h23
      simpa [leChars, hab] using h12
    · simp only [leChars, if_neg hab, decide_eq_true_eq] at h12
      simp only [leChars, if_neg hbc, decide_eq_true_eq] at h23
      have hac : a.toNat < c.toNat := Nat.lt_trans h12 h23
      have : a ≠ c := fun h => absurd (h ▸ hac) (lt_irrefl _)
      simp [leChars, this, hac]

theorem leChars_antisymm : ∀ l1 l2, leChars l1 l2 = true → leChars l2 l1 = true →
    l1 = l2
  | [], [], _, _ => rfl
  | [], _ :: _, _, h21 => by simp [leChars] at h21
  | _ :: _, [], h12, _ => by simp [leChars] at h12
  | a :: as, b :: bs, h12, h21 => by
    by_cases hab : a = b
    · subst hab
      simp only [leChars, if_pos rfl] at h12 h21
      rw [leChars_antisymm as bs h12 h21]
    · simp only [leChars, if_neg hab, decide_eq_true_eq] at h12
      simp only [leChars, if_neg (Ne.symm hab), decide_eq_true_eq] at h21
      exact absurd (Nat.lt_trans h12 h21) (lt_irrefl _)

theorem strLe_antisymm {s t : String} (h1 : strLe s t = true)
    (h2 : strLe t s = true) : s = t :=
  stringExt (leChars_antisymm _ _ h1 h2)

instance instOptLeTotal :
    IsTotal (String × String) (fun a b => strLe a.1 b.1 = true) :=
  ⟨fun a b => leChars_total a.1.data b.1.data⟩

instance instOptLeTrans :
    IsTrans (String × String) (fun a b => strLe a.1 b.1 = true) :=
  ⟨fun _ _ _ h1 h2 => leChars_trans _ _ _ h1 h2⟩

instance instOptLtAntisymm :
    IsAntisymm (String × String) (fun a b => strLe a.1 b.1 = true ∧ a.1 ≠ b.1) :=
  ⟨fun _ _ h1 h2 => absurd (strLe_antisymm h1.1 h2.1) h1.2⟩

theorem perm_any {α : Type} {l1 l2 : List α} (h : l1.Perm l2) (p : α → Bool) :
    l1.any p = l2.any p := by
  induction h with
  | nil => rfl
  | cons x _ ih => simp [List.any_cons, ih]
  | swap x y l => cases hx : p x <;> cases hy : p y <;> simp [List.any_cons, hx, hy]
  | trans _ _ ih1 ih2 => rw [ih1, ih2]

theorem perm_updateOpt {o1 o2 : List (String × String)} (h : o1.Perm o2)
    (k v : String) : (updateOpt o1 k v).Perm (updateOpt o2 k v) := by
  unfold updateOpt
  rw [perm_any h]
  by_cases hc : o2.any (fun p => p.1 == k) = true
  · simpa [hc] using h.map _
  · simp only [Bool.not_eq_true] at hc
    simpa [hc] using (List.perm_append_right_iff _).mpr h

theorem perm_mergeField {o1 o2 : List (String × String)} (h : o1.Perm o2)
    (k v : String) : (mergeField o1 k v).Perm (mergeField o2 k v) := by
  unfold mergeField
  by_cases hv : v = ""
  · simpa [hv] using h
  · simpa [hv] using perm_updateOpt h k v

theorem perm_mergeShorthand {o1 o2 : List (String × String)} (h : o1.Perm o2)
    (master jars files dcp appc : String) :
    (mergeShorthand o1 master jars files dcp appc).Perm
      (mergeShorthand o2 master jars files dcp appc) := by
  unfold mergeShorthand
  exact perm_mergeField (perm_mergeField (perm_mergeField (perm_mergeField
    (perm_mergeField h _ _) _ _) _ _) _ _) _ _

theorem mem_updateOpt_self (opts : List (String × String)) (k v : String) :
    (k, v) ∈ updateOpt opts k v := by
  unfold updateOpt
  by_cases hc : opts.any (fun p => p.1 == k) = true
  · rw [if_pos hc]
    obtain ⟨p, hp, hpk⟩ := List.any_eq_true.1 hc
    exact List.mem_map.2 ⟨p, hp, by simp [hpk]⟩
  · rw [if_neg hc]
    exact List.mem_append.2 (Or.inr (List.mem_singleton.2 rfl))

theorem sortOpts_eq_of_perm {l1 l2 : List (String × String)} (h : l1.Perm l2)
    (hnd : (l1.map Prod.fst).Nodup) : sortOpts l1 = sortOpts l2 := by
  have hp : (sortOpts l1).Perm (sortOpts l2) :=
    (List.perm_insertionSort _ l1).trans
      (h.trans (List.perm_insertionSort _ l2).symm)
  have hnd2 : (l2.map Prod.fst).Nodup := (h.map Prod.fst).nodup hnd
  have sorted_strict : ∀ (l : List (String × String)),
      (l.map Prod.fst).Nodup →
      (sortOpts l).Pairwise (fun a b => strLe a.1 b.1 = true ∧ a.1 ≠ b.1) := by
    intro l hl
    have hs : (sortOpts l).Pairwise (fun a b => strLe a.1 b.1 = true) :=
      List.sorted_insertionSort _ l
    have hmapnd : ((sortOpts l).map Prod.fst).Nodup :=
      (((List.perm_insertionSort _ l).map Prod.fst).symm).nodup hl
    have hne : (sortOpts l).Pairwise (fun a b => a.1 ≠ b.1) :=
      List.pairwise_map.1 hmapnd
    exact hs.and hne
  exact List.eq_of_perm_of_sorted hp (sorted_strict l1 hnd) (sorted_strict l2 hnd2)

theorem stripLeadingDashes_dash (c : String) :
    stripLeadingDashes ("-" ++ c) = stripLeadingDashes c := by
  cases c
  rfl

theorem replaceCharList_of_not_mem {c : Char} {rep : List Char} :
    ∀ {l : List Char}, c ∉ l → replaceCharList c rep l = l
  | [], _ => rfl
  | a :: as, h => by
    have ha : a ≠ c := fun hac => h (hac ▸ List.mem_cons_self a as)
    have has : c ∉ as := fun hm => h (List.mem_cons_of_mem a hm)
    simp [replaceCharList, ha, replaceCharList_of_not_mem has]

/-! ### Claim theorems -/

/-- C1: for every call to `spark_submit` whose application reference is
empty or absent (the parameter's default), the call fails with the
specification's `InvalidSubmissionError` (the `assert application` guard)
and zero remote invocations occur before the failure: the trace of
commands sent over the connection is empty. -/
theorem spark_submit_missing_application (spark_options : List (String × String))
    (master jars files driver_class_path application_class application_args : String) :
    spark_submit spark_options master jars files driver_class_path
      application_class "" application_args =
      ([], some IsshoError.invalidSubmission) := rfl

/-- C2 (code evaluated at the failing input): `put` with `remotepath`
omitted and the `hadoop` flag left at its default evaluates
`remotepath.startswith("hdfs")` on `None` and raises an `AttributeError`
before resolving any path or performing any transfer, instead of
defaulting the remote path to the last segment of the local path as the
claim (and `put`'s own docstring) states. -/
theorem put_missing_remotepath_attribute_error :
    put "/home/remote" "/home/local" "1700000000.0" false "a/b.txt" none false =
      ([], some (IsshoError.attributeErr
        "NoneType object has no attribute startswith")) := rfl

/-- C3 (counterexample): over a connection that echoes back the command it
is asked to run, `get_output("echo $HOME")` returns the echoed string with
its trailing newline intact, not the stripped string the claim describes. -/
theorem get_output_not_stripped_cex :
    get_output echoConn "echo $HOME" [] = "echo $HOME\n" ∧
      "echo $HOME\n" ≠ "echo $HOME" :=
  ⟨rfl, by decide⟩

/-- C3 (amended): `get_output` returns exactly the echoed string, trailing
whitespace included; the stripping of trailing whitespace observed in the
bootstrap happens at the call site (`self.get_output("echo $HOME").strip()`
in `Issho.__init__`), not inside `get_output`. -/
theorem get_output_returns_echo_exactly (cmd : String) :
    get_output echoConn cmd [] = cmd ++ "\n" := by
  simp [get_output, exec, execCmdString, add_arguments_to_cmd, echoConn,
    String.join]

/-- C4: in every execution mode of `exec` (foreground-streamed,
foreground-captured, background-detached), the standard-error stream of
the executed command is drained in full to the caller's error channel, and
the captured output is computed from the standard-output stream alone: it
is unchanged when the same connection produces no standard error at all. -/
theorem exec_stderr_drained_not_captured (conn : Conn) (cmd : String)
    (args : List String) (bg capture_output : Bool) :
    (exec conn cmd args bg capture_output).errOut =
      (conn (execCmdString cmd args bg)).2 ∧
    (exec conn cmd args bg capture_output).captured =
      (exec (fun c => ((conn c).1, [])) cmd args bg capture_output).captured :=
  ⟨rfl, rfl⟩

/-- C5: every `get` that requires distributed-filesystem staging (flag set,
or forced by the `hdfs` scheme prefix) performs, in order, the bridge
copy-in command `hadoop fs -get -f <remote> <tmp>` into the generated
`/tmp/<sanitized>_<timestamp>` path, then the SFTP byte transfer of that
temporary path to the local machine, then the remote delete `rm <tmp>`;
when the byte-transfer step fails, the trace stops after the transfer
attempt and the remote delete is skipped. -/
theorem get_staged_ordering (remoteHome localHome ts : String)
    (sftpFails : Bool) (remotepath : String) (localpath : Option String)
    (hadoopFlag : Bool)
    (h : (hadoopFlag || strStarts remotepath "hdfs") = true) :
    get remoteHome localHome ts sftpFails remotepath localpath hadoopFlag =
      (let lpath := (_sftp_paths remoteHome localHome localpath (some remotepath)).1
       let tmp := "/tmp/" ++ strReplaceChar '/' "_" lpath ++ "_" ++ ts
       if sftpFails then
         ([Event.remoteCmd (hadoopCmdString "get -f" [remotepath, tmp]),
           Event.sftpGet tmp lpath], some IsshoError.transferFailed)
       else
         ([Event.remoteCmd (hadoopCmdString "get -f" [remotepath, tmp]),
           Event.sftpGet tmp lpath,
           Event.remoteCmd (execCmdString "rm" [tmp] false)], none)) := by
  cases sftpFails <;> simp [get, h]

/-- C5 witness: a staged `get` of `hdfs://nn/x.csv` produces exactly the
bridge command, the byte transfer and the delete in order, and with a
failing byte transfer the same prefix without the delete. -/
theorem get_staged_ordering_witness :
    get "/h" "/l" "123" false "hdfs://nn/x.csv" (some "x.csv") false =
      ([Event.remoteCmd "hadoop fs -get -f hdfs://nn/x.csv /tmp/x.csv_123",
        Event.sftpGet "/tmp/x.csv_123" "x.csv",
        Event.remoteCmd "rm /tmp/x.csv_123"], none) ∧
    get "/h" "/l" "123" true "hdfs://nn/x.csv" (some "x.csv") false =
      ([Event.remoteCmd "hadoop fs -get -f hdfs://nn/x.csv /tmp/x.csv_123",
        Event.sftpGet "/tmp/x.csv_123" "x.csv"],
       some IsshoError.transferFailed) := by
  constructor
  · exact (get_staged_ordering "/h" "/l" "123" false "hdfs://nn/x.csv"
      (some "x.csv") false (by decide)).trans (by decide)
  · exact (get_staged_ordering "/h" "/l" "123" true "hdfs://nn/x.csv"
      (some "x.csv") false (by decide)).trans (by decide)

/-- C7 (counterexample): the remote side of a resolved transfer path pair
substitutes a non-leading occurrence of the home-directory marker too
(`str.replace` rewrites every occurrence), contradicting the claim that
only a leading marker is substituted and occurrences elsewhere are left
unchanged. -/
theorem sftp_remote_marker_cex :
    (_sftp_paths "/home/u" "/home/l" (some "a.txt") (some "/data/~x")).2 =
      "/data//home/ux" ∧
    "/data//home/ux" ≠ "/data/~x" :=
  ⟨rfl, by decide⟩

/-- C7 (amended): the remote side of the resolved pair substitutes every
occurrence of the home-directory marker with the Session's cached remote
home directory; in particular a leading marker followed by a marker-free
remainder resolves to the home directory prepended to the remainder. -/
theorem sftp_remote_replaces_every_marker (remoteHome localHome : String)
    (localpath : Option String) (remotepath rest : String)
    (hno : '~' ∉ rest.data) :
    (_sftp_paths remoteHome localHome localpath (some remotepath)).2 =
      strReplaceChar '~' remoteHome remotepath ∧
    (_sftp_paths remoteHome localHome localpath (some ("~" ++ rest))).2 =
      remoteHome ++ rest := by
  refine ⟨rfl, ?_⟩
  show strReplaceChar '~' remoteHome ("~" ++ rest) = remoteHome ++ rest
  cases rest with
  | mk d =>
    apply stringExt
    show replaceCharList '~' remoteHome.data ('~' :: d) =
      remoteHome.data ++ d
    simp [replaceCharList, replaceCharList_of_not_mem hno]

/-- C7 amended witness: with remote home `/h`, the remote path `~/a`
resolves to `/h/a`. -/
theorem sftp_remote_replaces_every_marker_witness :
    (_sftp_paths "/h" "/l" (some "x") (some "~/a")).2 = "/h/a" :=
  (sftp_remote_replaces_every_marker "/h" "/l" (some "x") "z" "/a"
    (by decide)).2.trans (by decide)

/-- C8: an undefined method name invoked through `__getattr__` executes the
generic command whose verb is the method name with every underscore
replaced by a space, followed verbatim by the given arguments; e.g.
`session.ls("-la")` sends the command `ls -la` over the connection. -/
theorem getattr_dispatch_underscores (conn : Conn) (method_name : String)
    (args : List String) (bg capture_output : Bool) :
    methodCall conn method_name args bg capture_output =
      exec conn (strReplaceChar '_' " " method_name) args bg capture_output ∧
    (methodCall conn method_name args false capture_output).sent =
      add_arguments_to_cmd (strReplaceChar '_' " " method_name) args ∧
    (methodCall conn "ls" ["-la"] false capture_output).sent = "ls -la" ∧
    (methodCall conn "du_sh" ["/tmp"] false capture_output).sent = "du sh /tmp" :=
  ⟨rfl, rfl, rfl, rfl⟩

/-- C9 (counterexample): when the credential provider does hold a secret
for the (profile, kinit) key and local user but that secret is the empty
string, `kinit` raises the missing-credential error and runs no remote
command, contradicting the claim that whenever a secret is stored the
remote authentication command runs with the secret piped in (Python
truthiness treats the stored empty string like an absent one). -/
theorem kinit_stored_empty_secret_cex :
    _get_password (fun _ _ => some "") "dev" "me" "kinit" = some "" ∧
    kinit (fun _ _ => some "") "dev" "me" =
      ([], some (IsshoError.missingCredential kinitErrMsg)) :=
  ⟨rfl, rfl⟩

/-- C9 (amended): if the secret stored for the (profile, kinit) key and
local user is absent or empty, `kinit` fails with the specification's
`MissingCredentialError` carrying the actionable setup message, and no
remote command runs; otherwise (a nonempty stored secret) it runs the
remote authentication command with the fetched secret piped into `kinit`. -/
theorem kinit_credential_behavior (lookup : String → String → Option String)
    (profile local_user : String) :
    ((_get_password lookup profile local_user "kinit" = none ∨
      _get_password lookup profile local_user "kinit" = some "") →
      kinit lookup profile local_user =
        ([], some (IsshoError.missingCredential kinitErrMsg))) ∧
    (∀ pw, _get_password lookup profile local_user "kinit" = some pw → pw ≠ "" →
      kinit lookup profile local_user =
        ([execCmdString ("echo " ++ pw ++ " | kinit") [] false], none)) := by
  constructor
  · intro h
    rcases h with h | h <;> simp [kinit, h]
  · intro pw hpw hne
    simp [kinit, hpw, hne]

/-- C9 amended witness: with no stored secret `kinit` fails with the
actionable error and runs nothing; with stored secret `pw1` it runs
exactly `echo pw1 | kinit`. -/
theorem kinit_credential_behavior_witness :
    kinit (fun _ _ => none) "dev" "me" =
      ([], some (IsshoError.missingCredential kinitErrMsg)) ∧
    kinit (fun _ _ => some "pw1") "dev" "me" = (["echo pw1 | kinit"], none) := by
  constructor
  · exact (kinit_credential_behavior (fun _ _ => none) "dev" "me").1 (Or.inl rfl)
  · exact ((kinit_credential_behavior (fun _ _ => some "pw1") "dev" "me").2
      "pw1" rfl (by decide)).trans (by decide)

/-- C10: `hadoop` strips all leading dashes from the subcommand and
prefixes exactly one dash before executing it under `hadoop fs`: prefixing
any number of extra dashes to the subcommand leaves the executed remote
command unchanged, the executed command is `hadoop fs` followed by the
normalized subcommand and the arguments, and concretely `get`, `-get` and
`--get` with argument `x` all send `hadoop fs -get x`. -/
theorem hadoop_dash_normalization (conn : Conn) (command : String)
    (args : List String) (bg capture_output : Bool) :
    hadoop conn ("-" ++ command) args bg capture_output =
      hadoop conn command args bg capture_output ∧
    hadoop conn command args bg capture_output =
      exec conn "hadoop fs" (("-" ++ stripLeadingDashes command) :: args)
        bg capture_output ∧
    (hadoop conn "get" ["x"] false capture_output).sent = "hadoop fs -get x" ∧
    (hadoop conn "-get" ["x"] false capture_output).sent = "hadoop fs -get x" ∧
    (hadoop conn "--get" ["x"] false capture_output).sent = "hadoop fs -get x" := by
  refine ⟨?_, rfl, rfl, rfl, rfl⟩
  unfold hadoop
  rw [stripLeadingDashes_dash]

/-- C6: the `spark_submit` option merge and rendering are deterministic:
two submissions whose option mappings hold the same bindings in different
orders (a permutation, with the cleaned option names distinct as they are
in a Python dict) construct the identical command string; the
`application_class` shorthand is merged into the options mapping under the
canonical key `class`; the executed command is `spark-submit` followed by
the cleaned options rendered sorted by option name; and that rendered
option list is sorted alphabetically. -/
theorem spark_submit_merge_deterministic (o1 o2 : List (String × String))
    (master jars files driver_class_path application_class
     application application_args : String)
    (hperm : o1.Perm o2)
    (hnd : ((clean_spark_options (mergeShorthand o1 master jars files
      driver_class_path application_class)).map Prod.fst).Nodup) :
    spark_submit o1 master jars files driver_class_path application_class
        application application_args =
      spark_submit o2 master jars files driver_class_path application_class
        application application_args ∧
    (application_class ≠ "" →
      ("class", application_class) ∈
        mergeShorthand o1 master jars files driver_class_path application_class) ∧
    (application ≠ "" →
      spark_submit o1 master jars files driver_class_path application_class
          application application_args =
        (["spark-submit " ++
            renderOpts (sortOpts (clean_spark_options (mergeShorthand o1
              master jars files driver_class_path application_class))) ++
            " " ++ application ++ " " ++ application_args], none)) ∧
    (sortOpts (clean_spark_options (mergeShorthand o1 master jars files
        driver_class_path application_class))).Pairwise
      (fun a b => strLe a.1 b.1 = true) := by
  refine ⟨?_, ?_, ?_, ?_⟩
  · have hs : sortOpts (clean_spark_options (mergeShorthand o1 master jars
        files driver_class_path application_class)) =
        sortOpts (clean_spark_options (mergeShorthand o2 master jars files
          driver_class_path application_class)) :=
      sortOpts_eq_of_perm
        ((perm_mergeShorthand hperm master jars files driver_class_path
          application_class).map _) hnd
    by_cases happ : application = ""
    · simp [spark_submit, happ]
    · simp [spark_submit, happ, hs]
  · intro hc
    unfold mergeShorthand mergeField
    rw [if_neg hc]
    exact mem_updateOpt_self _ _ _
  · intro happ
    simp [spark_submit, happ, execCmdString, add_arguments_to_cmd]
  · exact List.sorted_insertionSort _ _

/-- C6 witness: the mappings holding `master ↦ m1, jars ↦ j1` in either
order, with application class `c`, submit the identical command
`spark-submit --class c --jars j1 --master m1 app.jar arg`, with the
shorthand merged under the `class` key. -/
theorem spark_submit_merge_deterministic_witness :
    spark_submit [("master", "m1"), ("jars", "j1")] "" "" "" "" "c"
        "app.jar" "arg" =
      spark_submit [("jars", "j1"), ("master", "m1")] "" "" "" "" "c"
        "app.jar" "arg" ∧
    ("class", "c") ∈ mergeShorthand [("master", "m1"), ("jars", "j1")]
      "" "" "" "" "c" ∧
    spark_submit [("master", "m1"), ("jars", "j1")] "" "" "" "" "c"
        "app.jar" "arg" =
      (["spark-submit --class c --jars j1 --master m1 app.jar arg"], none) := by
  have h := spark_submit_merge_deterministic
    [("master", "m1"), ("jars", "j1")] [("jars", "j1"), ("master", "m1")]
    "" "" "" "" "c" "app.jar" "arg" (List.Perm.swap _ _ _) (by decide)
  exact ⟨h.1, h.2.1 (by decide), (h.2.2.1 (by decide)).trans (by decide)⟩

end Issho
